import Mathlib

/-!
Verification development for the MOC (meridional overturning circulation)
diagnostic of om4labs, a shallow embedding of `om4labs/diags/moc/moc.py`.

Numeric values are modelled as rationals (`ℚ`); a possibly-missing
bathymetry value is `Option ℚ` with `none` standing for NaN.  Arrays are
modelled as total functions from indices, together with explicit extents
where a reduction over an axis is taken.  Fallible code (numpy reductions
over empty data, Python assertions) returns `Except String`.
-/

namespace Moc

/-- Reduction of a list by `max`, as numpy computes `amax` on a nonempty
array: fold of `max` over the tail starting from the head.  The empty case
is never used on the success path (numpy raises); callers go through
`amax` which models the raise. -/
def foldMaxQ : List ℚ → ℚ
  | [] => 0
  | x :: xs => xs.foldl max x

/-- Reduction of a list by `min`, as numpy computes `.min()` on a nonempty
array. -/
def foldMinQ : List ℚ → ℚ
  | [] => 0
  | x :: xs => xs.foldl min x

/-- `np.amax` on a 1-D array: raises on zero-size input, otherwise reduces
by `max`. -/
def amax (l : List ℚ) : Except String ℚ :=
  match l with
  | [] => Except.error "zero-size array to reduction operation maximum which has no identity"
  | x :: xs => Except.ok (xs.foldl max x)

/-! ## The input dataset and the external collaborators of `read`

`read` consumes the merged model-output dataset plus the grid/topography
and basin-mask collaborators.  We bundle everything `read` looks at into
one record: the dimension names of the merged input, a lookup for 1-D
coordinate variables (used for the vertical interface), the bathymetry
field returned by `read_topography` (with `none` for missing cells), the
horizontal grid coordinates, and the basin-mask generator. -/

structure InputDs where
  dims : List String
  var1d : String → ℕ → ℚ
  bathy : ℕ → ℕ → Option ℚ
  geolon : ℕ → ℕ → ℚ
  geolat : ℕ → ℕ → ℚ
  basinMask : String → ℕ → ℕ → ℚ

/-- The unified dataset assembled by `read` (`moc.py`, function `read`):
transport fields are irrelevant to the claims and omitted; everything the
downstream pipeline reads is kept. -/
structure Dset where
  layer : String
  interface : String
  ifaceVals : ℕ → ℚ
  geolon : ℕ → ℕ → ℚ
  geolat : ℕ → ℕ → ℚ
  depth : ℕ → ℕ → ℚ
  zmod : ℕ → ℕ → ℕ → ℚ
  wet : ℕ → ℕ → ℚ
  basinAA : ℕ → ℕ → ℚ
  basinIP : ℕ → ℕ → ℚ

/-- moc.py line 72:
`layer = "z_l" if "z_l" in ds.dims else "rho2_l" if "rho2_l" in ds.dims else None`. -/
def detLayer (dims : List String) : Option String :=
  if "z_l" ∈ dims then some "z_l" else if "rho2_l" ∈ dims then some "rho2_l" else none

/-- moc.py line 76:
`interface = "z_i" if layer == "z_l" else "rho2_i" if layer == "rho2_l" else None`. -/
def detInterface (layer : String) : Option String :=
  if layer = "z_l" then some "z_i" else if layer = "rho2_l" then some "rho2_i" else none

/-- moc.py `read` (lines 41-115).  The assertion on line 73 is the error
branch; every derived field below it is only built when a vertical
coordinate was recognized.
* `depth j i = np.where(np.isnan(_depth), 0.0, _depth)` (line 90);
* `zmod k j i = min(depth, |interface coordinate|) * -1`, transposed to
  `(interface, yh, xh)` (lines 94-96);
* `wet j i = np.where(np.isnan(_depth), 0.0, 1.0)` (line 100);
* basin masks for `atlantic_arctic` and `indo_pacific`, stacked in that
  order (lines 104-109). -/
def read (ds : InputDs) : Except String Dset :=
  match detLayer ds.dims with
  | none => Except.error "Unrecognized vertical coordinate."
  | some layer =>
    let interface := (detInterface layer).getD ""
    let ifaceVals := ds.var1d interface
    let depth : ℕ → ℕ → ℚ := fun j i => (ds.bathy j i).getD 0
    let zmod : ℕ → ℕ → ℕ → ℚ := fun k j i => (min (depth j i) |ifaceVals k|) * (-1)
    let wet : ℕ → ℕ → ℚ := fun j i => if (ds.bathy j i).isSome then 1 else 0
    Except.ok
      { layer := layer
        interface := interface
        ifaceVals := ifaceVals
        geolon := ds.geolon
        geolat := ds.geolat
        depth := depth
        zmod := zmod
        wet := wet
        basinAA := ds.basinMask "atlantic_arctic"
        basinIP := ds.basinMask "indo_pacific" }

/-! ## `calculate` -/

/-- An xarray `DataArray`: named dimensions, their extents, and the data
indexed by a position list (one entry per dimension). -/
structure DataArray where
  dims : List String
  shape : List ℕ
  data : List ℕ → ℚ

/-- `xr.concat(arrs, dim="basin")` for a dimension name that is new to the
inputs: the new dimension is inserted as the leading axis; entry `b` along
it is the `b`-th input array. -/
def concatNewDim (name : String) (arrs : List DataArray) : DataArray :=
  { dims := name :: ((arrs.head?.map DataArray.dims).getD [])
    shape := arrs.length :: ((arrs.head?.map DataArray.shape).getD [])
    data := fun idx =>
      match idx with
      | [] => 0
      | b :: rest => (((arrs.get? b).map DataArray.data).map (fun f => f rest)).getD 0 }

/-- Swap of the first two entries of a list; lists shorter than two are
unchanged. -/
def swap01 {α : Type} : List α → List α
  | a :: b :: rest => b :: a :: rest
  | l => l

/-- `a.transpose(a.dims[1], a.dims[0], ...)` (moc.py line 129): the first
two dimensions are swapped, the remaining ones keep their order, and an
index into the result swaps back into the original array. -/
def transposeSwap01 (a : DataArray) : DataArray :=
  { dims := swap01 a.dims
    shape := swap01 a.shape
    data := fun idx => a.data (swap01 idx) }

/-- moc.py line 121: the fixed basin list of `calculate`. -/
def mocBasins : List String := ["atl-arc", "indopac", "global"]

/-- moc.py `calculate` (lines 118-131).  `xoverturning.calcmoc` is an
external collaborator and is passed in as a function of the dataset and
the basin selector. -/
def calculate (dset : Dset) (calcmoc : Dset → String → DataArray) : DataArray :=
  transposeSwap01 (concatNewDim "basin" (mocBasins.map (calcmoc dset)))

/-! ## `_findExtrema` (moc.py lines 137-147)

`psi`, `y` and `z` are 2-D arrays of shape `(m, n)`; numpy boolean
indexing flattens in row-major order, so flat index `k` addresses cell
`(k / n, k % n)`.  `psi` is modelled without masked entries. -/

/-- Flat indices selected by `(y >= min_lat) & (y <= max_lat) & (z < -min_depth)`
(moc.py line 142), in row-major order over an `(m, n)` array. -/
def selIdx (m n : ℕ) (y z : ℕ → ℕ → ℚ) (minLat maxLat minDepth : ℚ) : List ℕ :=
  (List.range (m * n)).filter fun k =>
    decide (minLat ≤ y (k / n) (k % n)) && decide (y (k / n) (k % n) ≤ maxLat) &&
      decide (z (k / n) (k % n) < -minDepth)

/-- `np.argmin` over the listed indices: the first index attaining the
minimum of `f` (ties keep the earlier index, as numpy does). -/
def argminAbs (f : ℕ → ℚ) : List ℕ → Option ℕ
  | [] => none
  | k :: ks => some (ks.foldl (fun b k2 => if f k2 < f b then k2 else b) k)

/-- moc.py `_findExtrema`:
`psiMax = mult * np.amax(mult * psi[band])`, then
`idx = np.argmin(np.abs(psi - psiMax))` over the whole flattened array,
`(j, i) = np.unravel_index(idx, psi.shape)`, and the point `(j, i)` is
marked with the printed value `psi[j, i]`. -/
def findExtrema (m n : ℕ) (y z psi : ℕ → ℕ → ℚ)
    (minLat maxLat minDepth mult : ℚ) : Except String ((ℕ × ℕ) × ℚ) :=
  match amax ((selIdx m n y z minLat maxLat minDepth).map fun k => mult * psi (k / n) (k % n)) with
  | Except.error e => Except.error e
  | Except.ok mx =>
    let psiMax := mult * mx
    match argminAbs (fun k => |psi (k / n) (k % n) - psiMax|) (List.range (m * n)) with
    | none => Except.error "attempt to get argmin of an empty sequence"
    | some kb => Except.ok ((kb / n, kb % n), psi (kb / n) (kb % n))

/-! ## Coordinate flattening in `plot` (moc.py lines 212-223) -/

/-- A bare numpy ndarray: a shape and data indexed by a position list. -/
structure Arr where
  shape : List ℕ
  data : List ℕ → ℚ

/-- `a.min(axis=-1)`: drop the trailing axis, reduce over it by `min`. -/
def aminLast (a : Arr) : Arr :=
  { shape := a.shape.dropLast
    data := fun idx =>
      foldMinQ ((List.range (a.shape.getLastD 0)).map fun i => a.data (idx ++ [i])) }

/-- moc.py lines 221-222: `if len(z.shape) != 1: z = z.min(axis=-1)`. -/
def zForPlot (z : Arr) : Arr :=
  if z.shape.length = 1 then z else aminLast z

/-- `y[:, :].max(axis=-1)` for a 2-D `geolat` array: the per-row maximum
over the trailing (x) axis. -/
def rowMaxY (y : Arr) : ℕ → ℚ :=
  fun j => foldMaxQ ((List.range (y.shape.getD 1 0)).map fun i => y.data [j, i])

/-- moc.py line 223: `yy = y[:, :].max(axis=-1) + 0 * z`.  The 1-D row
maximum broadcasts against `z` along the last axis of `z`. -/
def plotYY (y z : Arr) : Arr :=
  { shape := z.shape
    data := fun idx => rowMaxY y (idx.getLastD 0) + 0 * z.data idx }

/-- The pair `(yy, z)` used for plotting: `z` collapsed when not 1-D, then
`yy` built from the per-row latitude maxima broadcast over `z`. -/
def plotCoords (y zmod : Arr) : Arr × Arr :=
  let z := zForPlot zmod
  (plotYY y z, z)

/-! ## `_create_topomask` (moc.py lines 200-210) -/

/-- moc.py line 202: `depth = np.where(mask == 1, depth, 0.0)` when a
basin mask is given, else the bathymetry unchanged. -/
def maskedDepth (depth : ℕ → ℕ → ℚ) (mask : Option (ℕ → ℕ → ℚ)) : ℕ → ℕ → ℚ :=
  match mask with
  | some msk => fun j i => if msk j i = 1 then depth j i else 0
  | none => depth

/-- moc.py line 203: `topomask = depth.max(axis=-1)`, the per-row maximum
over the trailing (x) axis of a `(ny, nx)` bathymetry field. -/
def rowDepth (nx : ℕ) (d : ℕ → ℕ → ℚ) : ℕ → ℚ :=
  fun j => foldMaxQ ((List.range nx).map fun i => d j i)

/-- moc.py line 205: `_z = np.arange(0, 7100, 100)`, the fixed vertical
sampling 0, 100, ..., 7000 (71 values). -/
def topoZ : List ℚ := (List.range 71).map fun k => 100 * (k : ℚ)

/-- A 2-D numpy masked array over `(vertical sample, row)` indices. -/
structure MaskedArr2 where
  mask : ℕ → ℕ → Bool
  data : ℕ → ℕ → ℚ

/-- moc.py `_create_topomask`: restrict bathymetry to the basin mask,
take per-row maxima, tile over the fixed sampling, mask where
`_zz < topomask` (line 208), and zero the values (line 209).  Returns the
masked array together with `_z`. -/
def createTopomask (nx : ℕ) (depth : ℕ → ℕ → ℚ) (mask : Option (ℕ → ℕ → ℚ)) :
    MaskedArr2 × List ℚ :=
  let d := maskedDepth depth mask
  let rowd := rowDepth nx d
  ({ mask := fun k j => decide (100 * (k : ℚ) < rowd j)
     data := fun _ j => rowd j * 0 }, topoZ)

/-! ## `_plotPsi` (moc.py lines 149-198) -/

/-- moc.py lines 164-167: replacement of the masked cells of the
streamfunction before contouring.  `none` in the result stands for NaN;
with a topomask the masked cells become `0.0`, without one they become
NaN and are omitted from the contours. -/
def fillMasked (topomask : Option MaskedArr2) (psiMask : ℕ → ℕ → Bool)
    (psiData : ℕ → ℕ → ℚ) : ℕ → ℕ → Option ℚ :=
  fun j i =>
    match topomask with
    | some _ => if psiMask j i then some 0 else some (psiData j i)
    | none => if psiMask j i then none else some (psiData j i)

/-- A Python sequence as far as the `dates` check cares: a tuple or a
list of printable items. -/
inductive PySeq where
  | tup : List String → PySeq
  | lst : List String → PySeq

/-- `isinstance(dates, tuple)`. -/
def PySeq.isTuple : PySeq → Bool
  | PySeq.tup _ => true
  | PySeq.lst _ => false

/-- The elements of the sequence. -/
def PySeq.elems : PySeq → List String
  | PySeq.tup xs => xs
  | PySeq.lst xs => xs

/-- Modelled from the spec: a "two-element sequence", the property the
spec says the `dates` check enforces.  Used only to compare the spec's
wording with the code's actual check. -/
def specIsTwoElemSeq (s : PySeq) : Bool :=
  s.elems.length = 2

/-- moc.py lines 193-198: when `dates` is not `None`, assert it is a
tuple, then build the label from `dates[0]` and `dates[1]` (an
out-of-range index is a Python `IndexError`, modelled as an error). -/
def datesLabel (dates : Option PySeq) : Except String (Option String) :=
  match dates with
  | none => Except.ok none
  | some d =>
    if d.isTuple then
      match d.elems.get? 0, d.elems.get? 1 with
      | some a, some b => Except.ok (some ("Years " ++ a ++ " - " ++ b))
      | _, _ => Except.error "tuple index out of range"
    else Except.error "Year range should be provided as a tuple."

/-! ## The fixed panel and extremum calls of `plot` (moc.py lines 234-290) -/

/-- The eight `_findExtrema` calls of `plot`, in source order, as
`(panel, min_lat, max_lat, min_depth, mult)` with the defaults
`min_lat=-90`, `max_lat=90`, `min_depth=0`, `mult=1` filled in. -/
def annotCalls : List (ℕ × ℚ × ℚ × ℚ × ℚ) :=
  [(0, 26.5, 27, 0, 1), (0, -90, -33, 0, 1), (0, -90, 90, 0, 1),
   (1, -90, 90, 2000, -1), (1, -90, 90, 0, 1),
   (2, -90, -30, 0, 1), (2, 25, 90, 0, 1), (2, -90, 90, 2000, -1)]

/-- Sequencing of the extremum calls: Python evaluates them in order and
the first raised error aborts `plot`; no call is skipped. -/
def seqE : List (Except String ((ℕ × ℕ) × ℚ)) → Except String (List ((ℕ × ℕ) × ℚ))
  | [] => Except.ok []
  | e :: es =>
    match e with
    | Except.error msg => Except.error msg
    | Except.ok a =>
      match seqE es with
      | Except.error msg => Except.error msg
      | Except.ok as => Except.ok (a :: as)

/-- The extremum annotation pass of `plot`: all eight `_findExtrema`
calls in source order, on the shared plotting coordinates `yy`, `z` and
the per-panel streamfunction slices `psi 0`, `psi 1`, `psi 2`. -/
def plotAnnots (m n : ℕ) (yy z : ℕ → ℕ → ℚ) (psi : ℕ → ℕ → ℕ → ℚ) :
    Except String (List ((ℕ × ℕ) × ℚ)) :=
  seqE (annotCalls.map fun c =>
    findExtrema m n yy z (psi c.1) c.2.1 c.2.2.1 c.2.2.2.1 c.2.2.2.2)

/-- The three panels of `plot` with the topomask argument each `_plotPsi`
call receives (moc.py lines 237-286): Atlantic and Indo-Pacific restricted
to their basin masks, Global built without a basin restriction — and all
three panels are given a topomask. -/
def plotPanels (nx : ℕ) (depth aamask ipmask : ℕ → ℕ → ℚ) :
    List (String × Option MaskedArr2) :=
  [("a. Atlantic MOC [Sv]", some (createTopomask nx depth (some aamask)).1),
   ("b. Indo-Pacific MOC [Sv]", some (createTopomask nx depth (some ipmask)).1),
   ("c. Global MOC [Sv]", some (createTopomask nx depth none).1)]

/-- moc.py `run` (lines 300-320): `read`, then `calculate`, then `plot`.
The panel list stands for the produced figure; it is only built when
`read` succeeded, so a failed `read` yields an error before any plotting. -/
def run (ds : InputDs) (calcmoc : Dset → String → DataArray) (nx : ℕ) :
    Except String (DataArray × List (String × Option MaskedArr2)) :=
  match read ds with
  | Except.error e => Except.error e
  | Except.ok dset =>
    let otsfn := calculate dset calcmoc
    Except.ok (otsfn, plotPanels nx dset.depth dset.basinAA dset.basinIP)

/-! ## Concrete inputs used by witnesses and counterexamples -/

/-- An input exposing the z-layer vertical coordinate system. -/
def dsZ : InputDs :=
  { dims := ["time", "z_l", "z_i", "yh", "xh"]
    var1d := fun _ k => (k : ℚ)
    bathy := fun j i => if j = 0 ∧ i = 0 then none else some 1
    geolon := fun _ _ => 0
    geolat := fun j _ => (j : ℚ)
    basinMask := fun _ _ _ => 1 }

/-- An input exposing the density-layer vertical coordinate system. -/
def dsRho : InputDs :=
  { dims := ["time", "rho2_l", "rho2_i", "yh", "xh"]
    var1d := fun _ k => (k : ℚ)
    bathy := fun _ _ => some 1
    geolon := fun _ _ => 0
    geolat := fun _ _ => 0
    basinMask := fun _ _ _ => 1 }

/-- An input exposing neither recognized vertical coordinate dimension. -/
def dsBad : InputDs :=
  { dims := ["time", "lev", "yh", "xh"]
    var1d := fun _ k => (k : ℚ)
    bathy := fun _ _ => some 1
    geolon := fun _ _ => 0
    geolat := fun _ _ => 0
    basinMask := fun _ _ _ => 1 }

/-- The dataset assembled by `read` from `dsZ`. -/
def dsetZ : Dset :=
  (read dsZ).toOption.getD
    { layer := ""
      interface := ""
      ifaceVals := fun _ => 0
      geolon := fun _ _ => 0
      geolat := fun _ _ => 0
      depth := fun _ _ => 0
      zmod := fun _ _ _ => 0
      wet := fun _ _ => 0
      basinAA := fun _ _ => 0
      basinIP := fun _ _ => 0 }

/-- A stub overturning collaborator whose output has the dimensions the
real `xoverturning.calcmoc` produces: `(time, interface, yh)`. -/
def exCalcmoc : Dset → String → DataArray :=
  fun _ b =>
    { dims := ["time", "z_i", "yh"]
      shape := [1, 35, 100]
      data := fun idx => if b = "indopac" then (idx.headD 0 : ℚ) + 7 else 0 }

/-- Latitude field of the `_findExtrema` example: row 0 at latitude 0,
row 1 at latitude 10. -/
def exY : ℕ → ℕ → ℚ := fun j _ => if j = 0 then 0 else 10

/-- Vertical position of the `_findExtrema` example: a flat -1 m. -/
def exZ : ℕ → ℕ → ℚ := fun _ _ => -1

/-- Streamfunction of the `_findExtrema` example: 5 on the diagonal,
0 elsewhere; the value 5 occurs both inside and outside the band. -/
def exPsi : ℕ → ℕ → ℚ := fun j i => if j = i then 5 else 0

/-- A 2 x 2 `geolat` example array. -/
def exYArr : Arr :=
  { shape := [2, 2]
    data := fun idx => ((idx.headD 0 : ℕ) : ℚ) + ((idx.getLastD 0 : ℕ) : ℚ) }

/-- A 1 x 2 x 2 `zmod` example array. -/
def exZArr : Arr :=
  { shape := [1, 2, 2]
    data := fun idx => -((idx.getLastD 0 : ℕ) : ℚ) }

/-! ## Helper lemmas on the reductions -/

theorem le_foldl_max (l : List ℚ) (a : ℚ) : a ≤ l.foldl max a := by
  induction l generalizing a with
  | nil => exact le_refl a
  | cons x xs ih =>
    show a ≤ xs.foldl max (max a x)
    exact le_trans (le_max_left a x) (ih (max a x))

theorem foldl_max_le_of_mem (l : List ℚ) (a b : ℚ) (hb : b ∈ l) : b ≤ l.foldl max a := by
  induction l generalizing a with
  | nil => cases hb
  | cons x xs ih =>
    show b ≤ xs.foldl max (max a x)
    rcases List.mem_cons.mp hb with h | h
    · subst h
      exact le_trans (le_max_right a b) (le_foldl_max xs (max a b))
    · exact ih (max a x) h

theorem foldl_max_attained (l : List ℚ) (a : ℚ) :
    l.foldl max a = a ∨ l.foldl max a ∈ l := by
  induction l generalizing a with
  | nil => exact Or.inl rfl
  | cons x xs ih =>
    show xs.foldl max (max a x) = a ∨ xs.foldl max (max a x) ∈ x :: xs
    rcases ih (max a x) with h | h
    · rcases max_choice a x with hm | hm
      · exact Or.inl (by rw [h, hm])
      · exact Or.inr (by rw [h, hm]; exact List.mem_cons_self x xs)
    · exact Or.inr (List.mem_cons_of_mem x h)

theorem foldl_min_le (l : List ℚ) (a : ℚ) : l.foldl min a ≤ a := by
  induction l generalizing a with
  | nil => exact le_refl a
  | cons x xs ih =>
    show xs.foldl min (min a x) ≤ a
    exact le_trans (ih (min a x)) (min_le_left a x)

theorem foldl_min_le_of_mem (l : List ℚ) (a b : ℚ) (hb : b ∈ l) : l.foldl min a ≤ b := by
  induction l generalizing a with
  | nil => cases hb
  | cons x xs ih =>
    show xs.foldl min (min a x) ≤ b
    rcases List.mem_cons.mp hb with h | h
    · subst h
      exact le_trans (foldl_min_le xs (min a b)) (min_le_right a b)
    · exact ih (min a x) h

theorem foldl_min_attained (l : List ℚ) (a : ℚ) :
    l.foldl min a = a ∨ l.foldl min a ∈ l := by
  induction l generalizing a with
  | nil => exact Or.inl rfl
  | cons x xs ih =>
    show xs.foldl min (min a x) = a ∨ xs.foldl min (min a x) ∈ x :: xs
    rcases ih (min a x) with h | h
    · rcases min_choice a x with hm | hm
      · exact Or.inl (by rw [h, hm])
      · exact Or.inr (by rw [h, hm]; exact List.mem_cons_self x xs)
    · exact Or.inr (List.mem_cons_of_mem x h)

theorem foldMaxQ_ge (x : ℚ) (xs : List ℚ) (b : ℚ) (hb : b ∈ x :: xs) :
    b ≤ foldMaxQ (x :: xs) := by
  show b ≤ xs.foldl max x
  rcases List.mem_cons.mp hb with h | h
  · subst h
    exact le_foldl_max xs b
  · exact foldl_max_le_of_mem xs x b h

theorem foldMaxQ_mem (x : ℚ) (xs : List ℚ) : foldMaxQ (x :: xs) ∈ x :: xs := by
  show xs.foldl max x ∈ x :: xs
  rcases foldl_max_attained xs x with h | h
  · rw [h]; exact List.mem_cons_self x xs
  · exact List.mem_cons_of_mem x h

theorem foldMinQ_le (x : ℚ) (xs : List ℚ) (b : ℚ) (hb : b ∈ x :: xs) :
    foldMinQ (x :: xs) ≤ b := by
  show xs.foldl min x ≤ b
  rcases List.mem_cons.mp hb with h | h
  · subst h
    exact foldl_min_le xs b
  · exact foldl_min_le_of_mem xs x b h

theorem foldMinQ_mem (x : ℚ) (xs : List ℚ) : foldMinQ (x :: xs) ∈ x :: xs := by
  show xs.foldl min x ∈ x :: xs
  rcases foldl_min_attained xs x with h | h
  · rw [h]; exact List.mem_cons_self x xs
  · exact List.mem_cons_of_mem x h

theorem amax_cons (x : ℚ) (xs : List ℚ) :
    amax (x :: xs) = Except.ok (foldMaxQ (x :: xs)) := rfl

theorem get?_map_range (f : ℕ → ℚ) (k nn : ℕ) (hk : k < nn) :
    ((List.range nn).map f).get? k = some (f k) := by
  rw [List.get?_eq_getElem?, List.getElem?_map, List.getElem?_range hk]
  rfl

theorem foldl_argmin_le (f : ℕ → ℚ) (ks : List ℕ) (acc : ℕ) :
    f (ks.foldl (fun b k2 => if f k2 < f b then k2 else b) acc) ≤ f acc ∧
      ∀ k2 ∈ ks, f (ks.foldl (fun b k2 => if f k2 < f b then k2 else b) acc) ≤ f k2 := by
  induction ks generalizing acc with
  | nil => exact ⟨le_refl _, by intro k2 h; cases h⟩
  | cons x xs ih =>
    simp only [List.foldl_cons]
    have hstep : f (if f x < f acc then x else acc) ≤ f acc ∧
        f (if f x < f acc then x else acc) ≤ f x := by
      by_cases h : f x < f acc
      · rw [if_pos h]; exact ⟨le_of_lt h, le_refl _⟩
      · rw [if_neg h]; exact ⟨le_refl _, le_of_not_lt h⟩
    refine ⟨le_trans (ih _).1 hstep.1, ?_⟩
    intro k2 hk2
    rcases List.mem_cons.mp hk2 with h | h
    · subst h
      exact le_trans (ih _).1 hstep.2
    · exact (ih _).2 k2 h

theorem foldl_argmin_mem (f : ℕ → ℚ) (ks : List ℕ) (acc : ℕ) :
    ks.foldl (fun b k2 => if f k2 < f b then k2 else b) acc = acc ∨
      ks.foldl (fun b k2 => if f k2 < f b then k2 else b) acc ∈ ks := by
  induction ks generalizing acc with
  | nil => exact Or.inl rfl
  | cons x xs ih =>
    simp only [List.foldl_cons]
    rcases ih (if f x < f acc then x else acc) with h | h
    · rw [h]
      by_cases hc : f x < f acc
      · rw [if_pos hc]
        exact Or.inr (List.mem_cons_self x xs)
      · rw [if_neg hc]
        exact Or.inl rfl
    · exact Or.inr (List.mem_cons_of_mem x h)

theorem argminAbs_spec (f : ℕ → ℚ) (k : ℕ) (ks : List ℕ) :
    ∃ kb, argminAbs f (k :: ks) = some kb ∧ kb ∈ k :: ks ∧
      ∀ k2 ∈ k :: ks, f kb ≤ f k2 := by
  refine ⟨ks.foldl (fun b k2 => if f k2 < f b then k2 else b) k, rfl, ?_, ?_⟩
  · rcases foldl_argmin_mem f ks k with h | h
    · rw [h]; exact List.mem_cons_self k ks
    · exact List.mem_cons_of_mem k h
  · intro k2 hk2
    rcases List.mem_cons.mp hk2 with h | h
    · subst h
      exact (foldl_argmin_le f ks k2).1
    · exact (foldl_argmin_le f ks k).2 k2 h

theorem foldMaxQ_ge_of_mem (l : List ℚ) (b : ℚ) (hb : b ∈ l) : b ≤ foldMaxQ l := by
  cases l with
  | nil => cases hb
  | cons x xs => exact foldMaxQ_ge x xs b hb

theorem foldMaxQ_mem_of_ne (l : List ℚ) (hl : l ≠ []) : foldMaxQ l ∈ l := by
  cases l with
  | nil => exact absurd rfl hl
  | cons x xs => exact foldMaxQ_mem x xs

theorem foldMinQ_le_of_mem (l : List ℚ) (b : ℚ) (hb : b ∈ l) : foldMinQ l ≤ b := by
  cases l with
  | nil => cases hb
  | cons x xs => exact foldMinQ_le x xs b hb

theorem foldMinQ_mem_of_ne (l : List ℚ) (hl : l ≠ []) : foldMinQ l ∈ l := by
  cases l with
  | nil => exact absurd rfl hl
  | cons x xs => exact foldMinQ_mem x xs

theorem seqE_error_of_mem (l : List (Except String ((ℕ × ℕ) × ℚ))) (msg : String)
    (hmem : Except.error msg ∈ l) : ∃ m, seqE l = Except.error m := by
  induction l with
  | nil => cases hmem
  | cons e es ih =>
    rcases List.mem_cons.mp hmem with h | h
    · rw [← h]
      exact ⟨msg, rfl⟩
    · cases e with
      | error m2 => exact ⟨m2, rfl⟩
      | ok a =>
        rcases ih h with ⟨m2, hm2⟩
        exact ⟨m2, by simp [seqE, hm2]⟩

/-! ## Helper lemmas on `read` -/

theorem read_eq_of_detLayer (ds : InputDs) (layer : String)
    (h : detLayer ds.dims = some layer) :
    read ds = Except.ok
      { layer := layer
        interface := (detInterface layer).getD ""
        ifaceVals := ds.var1d ((detInterface layer).getD "")
        geolon := ds.geolon
        geolat := ds.geolat
        depth := fun j i => (ds.bathy j i).getD 0
        zmod := fun k j i =>
          (min ((ds.bathy j i).getD 0) |ds.var1d ((detInterface layer).getD "") k|) * (-1)
        wet := fun j i => if (ds.bathy j i).isSome then 1 else 0
        basinAA := ds.basinMask "atlantic_arctic"
        basinIP := ds.basinMask "indo_pacific" } := by
  simp only [read, h]

theorem read_ok_elim (ds : InputDs) (d : Dset) (hr : read ds = Except.ok d) :
    (∀ k, d.ifaceVals k = ds.var1d d.interface k) ∧
    (∀ j i, d.depth j i = (ds.bathy j i).getD 0) ∧
    (∀ k j i, d.zmod k j i = (min (d.depth j i) |d.ifaceVals k|) * (-1)) ∧
    (∀ j i, d.wet j i = if (ds.bathy j i).isSome then 1 else 0) := by
  cases hdl : detLayer ds.dims with
  | none =>
    rw [show read ds = Except.error "Unrecognized vertical coordinate." by
      simp only [read, hdl]] at hr
    exact Except.noConfusion hr
  | some layer =>
    rw [read_eq_of_detLayer ds layer hdl, Except.ok.injEq] at hr
    subst hr
    exact ⟨fun _ => rfl, fun _ _ => rfl, fun _ _ _ => rfl, fun _ _ => rfl⟩

/-- Nonnegativity of the example bathymetry where it is present. -/
theorem dsZ_bathy_nonneg : ∀ j i v, dsZ.bathy j i = some v → 0 ≤ v := by
  intro j i v h
  simp only [dsZ] at h
  split at h
  · simp at h
  · rw [Option.some.injEq] at h
    subst h
    norm_num

/-- `read` on the example z-coordinate input. -/
theorem read_dsZ : read dsZ = Except.ok dsetZ := rfl

/-! ## Helper lemmas on `_findExtrema` -/

theorem findExtrema_empty (m n : ℕ) (y z psi : ℕ → ℕ → ℚ)
    (minLat maxLat minDepth mult : ℚ)
    (hsel : selIdx m n y z minLat maxLat minDepth = []) :
    findExtrema m n y z psi minLat maxLat minDepth mult =
      Except.error "zero-size array to reduction operation maximum which has no identity" := by
  simp only [findExtrema, hsel, List.map_nil]
  rfl

theorem findExtrema_eq_of (m n : ℕ) (y z psi : ℕ → ℕ → ℚ)
    (minLat maxLat minDepth mult mx : ℚ)
    (hamax : amax ((selIdx m n y z minLat maxLat minDepth).map
      fun k => mult * psi (k / n) (k % n)) = Except.ok mx)
    (kb : ℕ)
    (hargmin : argminAbs (fun k => |psi (k / n) (k % n) - mult * mx|)
      (List.range (m * n)) = some kb) :
    findExtrema m n y z psi minLat maxLat minDepth mult =
      Except.ok ((kb / n, kb % n), psi (kb / n) (kb % n)) := by
  simp only [findExtrema, hamax, hargmin]

theorem findExtrema_ok_of_nonempty (m n : ℕ) (y z psi : ℕ → ℕ → ℚ)
    (minLat maxLat minDepth mult : ℚ)
    (hsel : selIdx m n y z minLat maxLat minDepth ≠ []) :
    ∃ r, findExtrema m n y z psi minLat maxLat minDepth mult = Except.ok r := by
  cases hc : selIdx m n y z minLat maxLat minDepth with
  | nil => exact absurd hc hsel
  | cons s0 srest =>
    have hamax : amax ((selIdx m n y z minLat maxLat minDepth).map
        fun k => mult * psi (k / n) (k % n)) =
        Except.ok (foldMaxQ ((s0 :: srest).map fun k => mult * psi (k / n) (k % n))) := by
      rw [hc, List.map_cons]
      exact amax_cons _ _
    have hs0sel : s0 ∈ selIdx m n y z minLat maxLat minDepth := by
      rw [hc]
      exact List.mem_cons_self s0 srest
    have hs0 : s0 ∈ List.range (m * n) := List.mem_of_mem_filter hs0sel
    cases hr : List.range (m * n) with
    | nil =>
      rw [hr] at hs0
      cases hs0
    | cons r0 rr =>
      obtain ⟨kb, hkb_eq, _, _⟩ := argminAbs_spec
        (fun k => |psi (k / n) (k % n) -
          mult * foldMaxQ ((s0 :: srest).map fun k => mult * psi (k / n) (k % n))|) r0 rr
      refine ⟨((kb / n, kb % n), psi (kb / n) (kb % n)),
        findExtrema_eq_of m n y z psi minLat maxLat minDepth mult _ hamax kb ?_⟩
      rw [hr]
      exact hkb_eq

theorem findExtrema_ok_spec (m n : ℕ) (y z psi : ℕ → ℕ → ℚ)
    (minLat maxLat minDepth mult : ℚ)
    (hsel : selIdx m n y z minLat maxLat minDepth ≠ [])
    (hmult : mult * mult = 1) :
    ∃ j i, findExtrema m n y z psi minLat maxLat minDepth mult =
        Except.ok ((j, i), psi j i) ∧
      (∃ k ∈ selIdx m n y z minLat maxLat minDepth, psi (k / n) (k % n) = psi j i) ∧
      ∀ k ∈ selIdx m n y z minLat maxLat minDepth,
        mult * psi (k / n) (k % n) ≤ mult * psi j i := by
  cases hc : selIdx m n y z minLat maxLat minDepth with
  | nil => exact absurd hc hsel
  | cons s0 srest =>
    have hamax : amax ((selIdx m n y z minLat maxLat minDepth).map
        fun k => mult * psi (k / n) (k % n)) =
        Except.ok (foldMaxQ ((s0 :: srest).map fun k => mult * psi (k / n) (k % n))) := by
      rw [hc, List.map_cons]
      exact amax_cons _ _
    have hmem : foldMaxQ ((s0 :: srest).map fun k => mult * psi (k / n) (k % n)) ∈
        (s0 :: srest).map fun k => mult * psi (k / n) (k % n) := by
      rw [List.map_cons]
      exact foldMaxQ_mem _ _
    obtain ⟨ka, hka_mem, hka_eq⟩ := List.mem_map.mp hmem
    have hka_val : psi (ka / n) (ka % n) =
        mult * foldMaxQ ((s0 :: srest).map fun k => mult * psi (k / n) (k % n)) := by
      rw [← hka_eq, ← mul_assoc, hmult, one_mul]
    have hka_sel : ka ∈ selIdx m n y z minLat maxLat minDepth := by
      rw [hc]
      exact hka_mem
    have hka_range : ka ∈ List.range (m * n) := List.mem_of_mem_filter hka_sel
    cases hr : List.range (m * n) with
    | nil =>
      rw [hr] at hka_range
      cases hka_range
    | cons r0 rr =>
      obtain ⟨kb, hkb_eq, _, hkb_min⟩ := argminAbs_spec
        (fun k => |psi (k / n) (k % n) -
          mult * foldMaxQ ((s0 :: srest).map fun k => mult * psi (k / n) (k % n))|) r0 rr
      have hzero : |psi (kb / n) (kb % n) -
          mult * foldMaxQ ((s0 :: srest).map fun k => mult * psi (k / n) (k % n))| = 0 := by
        have h1 := hkb_min ka (by rw [← hr]; exact hka_range)
        simp only at h1
        rw [hka_val, sub_self, abs_zero] at h1
        exact le_antisymm h1 (abs_nonneg _)
      have hkb_val : psi (kb / n) (kb % n) =
          mult * foldMaxQ ((s0 :: srest).map fun k => mult * psi (k / n) (k % n)) :=
        sub_eq_zero.mp (abs_eq_zero.mp hzero)
      refine ⟨kb / n, kb % n, ?_, ?_, ?_⟩
      · refine findExtrema_eq_of m n y z psi minLat maxLat minDepth mult _ hamax kb ?_
        rw [hr]
        exact hkb_eq
      · refine ⟨ka, hka_mem, ?_⟩
        rw [hka_val, hkb_val]
      · intro k2 hk2
        have hin : mult * psi (k2 / n) (k2 % n) ∈
            (s0 :: srest).map fun k => mult * psi (k / n) (k % n) :=
          List.mem_map_of_mem _ hk2
        have hle := foldMaxQ_ge_of_mem _ _ hin
        rw [hkb_val, ← mul_assoc, hmult, one_mul]
        exact hle

/-! ## Claim theorems -/

/-- C2: `read` determines the vertical coordinate by checking the input's
dimensions in order for `z_l` then `rho2_l`; with `z_l` present the
result's attrs satisfy layer = `z_l` and interface = `z_i`; otherwise
with `rho2_l` present, layer = `rho2_l` and interface = `rho2_i`; with
neither, `read` fails with the assertion message before any further
assembly, and `run` fails before any plotting occurs. -/
theorem moc_read_vertical_coordinate (ds : InputDs) :
    ("z_l" ∈ ds.dims →
      ∃ d, read ds = Except.ok d ∧ d.layer = "z_l" ∧ d.interface = "z_i") ∧
    ("z_l" ∉ ds.dims → "rho2_l" ∈ ds.dims →
      ∃ d, read ds = Except.ok d ∧ d.layer = "rho2_l" ∧ d.interface = "rho2_i") ∧
    ("z_l" ∉ ds.dims → "rho2_l" ∉ ds.dims →
      read ds = Except.error "Unrecognized vertical coordinate." ∧
      ∀ calcmoc nx,
        run ds calcmoc nx = Except.error "Unrecognized vertical coordinate.") := by
  refine ⟨?_, ?_, ?_⟩
  · intro h
    have hl : detLayer ds.dims = some "z_l" := by simp [detLayer, h]
    exact ⟨_, read_eq_of_detLayer ds "z_l" hl, rfl, rfl⟩
  · intro h1 h2
    have hl : detLayer ds.dims = some "rho2_l" := by simp [detLayer, h1, h2]
    exact ⟨_, read_eq_of_detLayer ds "rho2_l" hl, rfl, rfl⟩
  · intro h1 h2
    have hl : detLayer ds.dims = none := by simp [detLayer, h1, h2]
    have hre : read ds = Except.error "Unrecognized vertical coordinate." := by
      simp only [read, hl]
    refine ⟨hre, ?_⟩
    intro calcmoc nx
    simp only [run, hre]

/-- C2 witness: the three branches exercised on concrete inputs. -/
theorem moc_read_vertical_coordinate_witness :
    (∃ d, read dsZ = Except.ok d ∧ d.layer = "z_l" ∧ d.interface = "z_i") ∧
    (∃ d, read dsRho = Except.ok d ∧ d.layer = "rho2_l" ∧ d.interface = "rho2_i") ∧
    (read dsBad = Except.error "Unrecognized vertical coordinate." ∧
      ∀ calcmoc nx,
        run dsBad calcmoc nx = Except.error "Unrecognized vertical coordinate.") :=
  ⟨(moc_read_vertical_coordinate dsZ).1 (by decide),
   (moc_read_vertical_coordinate dsRho).2.1 (by decide) (by decide),
   (moc_read_vertical_coordinate dsBad).2.2 (by decide) (by decide)⟩

/-- C3: for finite, non-negative bathymetry the `zmod` field assembled by
`read` is the negated elementwise minimum of bathymetry depth and the
absolute vertical interface position, so at every level and column
`|zmod| ≤ depth` and `zmod ≤ 0`. -/
theorem moc_zmod_clipping (ds : InputDs) (d : Dset) (hr : read ds = Except.ok d)
    (hb : ∀ j i v, ds.bathy j i = some v → 0 ≤ v) :
    ∀ k j i,
      d.zmod k j i = (min (d.depth j i) |d.ifaceVals k|) * (-1) ∧
      |d.zmod k j i| ≤ d.depth j i ∧ d.zmod k j i ≤ 0 := by
  obtain ⟨hiv, hd, hz, hw⟩ := read_ok_elim ds d hr
  intro k j i
  have hdep : 0 ≤ d.depth j i := by
    rw [hd j i]
    cases hbj : ds.bathy j i with
    | none => simp
    | some v => simpa using hb j i v hbj
  have hmin : 0 ≤ min (d.depth j i) |d.ifaceVals k| :=
    le_min hdep (abs_nonneg _)
  refine ⟨hz k j i, ?_, ?_⟩
  · rw [hz k j i, mul_neg_one, abs_neg, abs_of_nonneg hmin]
    exact min_le_left _ _
  · rw [hz k j i, mul_neg_one]
    exact neg_nonpos.mpr hmin

/-- C3 witness: the clipping invariant evaluated on the example input. -/
theorem moc_zmod_clipping_witness :
    |dsetZ.zmod 3 1 2| ≤ dsetZ.depth 1 2 ∧ dsetZ.zmod 3 1 2 ≤ 0 :=
  ⟨((moc_zmod_clipping dsZ dsetZ read_dsZ dsZ_bathy_nonneg) 3 1 2).2.1,
   ((moc_zmod_clipping dsZ dsetZ read_dsZ dsZ_bathy_nonneg) 3 1 2).2.2⟩

/-- C4: the `wet` and `depth` fields assembled by `read` are
complementary: `wet` is 0 exactly where the bathymetry was missing, and
there `depth` is 0; where the bathymetry was present, `wet` is 1 and
`depth` keeps the original value. -/
theorem moc_wet_depth_complement (ds : InputDs) (d : Dset)
    (hr : read ds = Except.ok d) :
    ∀ j i,
      (d.wet j i = 0 ↔ ds.bathy j i = none) ∧
      (ds.bathy j i = none → d.depth j i = 0) ∧
      ∀ v, ds.bathy j i = some v → d.wet j i = 1 ∧ d.depth j i = v := by
  obtain ⟨hiv, hd, hz, hw⟩ := read_ok_elim ds d hr
  intro j i
  refine ⟨?_, ?_, ?_⟩
  · rw [hw j i]
    cases hbj : ds.bathy j i with
    | none => simp
    | some v => simp
  · intro hn
    rw [hd j i, hn]
    rfl
  · intro v hv
    constructor
    · rw [hw j i, hv]
      rfl
    · rw [hd j i, hv]
      rfl

/-- C4 witness: complementarity evaluated at a missing and a present
bathymetry cell of the example input. -/
theorem moc_wet_depth_complement_witness :
    (dsetZ.wet 0 0 = 0 ↔ dsZ.bathy 0 0 = none) ∧
    dsetZ.depth 0 0 = 0 ∧ dsetZ.wet 1 1 = 1 ∧ dsetZ.depth 1 1 = 1 :=
  ⟨(moc_wet_depth_complement dsZ dsetZ read_dsZ 0 0).1,
   (moc_wet_depth_complement dsZ dsetZ read_dsZ 0 0).2.1 (by decide),
   ((moc_wet_depth_complement dsZ dsetZ read_dsZ 1 1).2.2 1 (by decide)).1,
   ((moc_wet_depth_complement dsZ dsetZ read_dsZ 1 1).2.2 1 (by decide)).2⟩

/-- C1 counterexample: with a collaborator whose output has leading
dimensions `(time, z_i, yh)` — as the streamfunction arrays consumed by
`plot` via `psi[0, basin]` do — `calculate` puts `basin` at dimension 1,
not dimension 0: the transpose on moc.py line 129 moves the prior
dimension 1 to the front and `basin` to second place. -/
theorem moc_calculate_basin_axis_cex :
    (calculate dsetZ exCalcmoc).dims = ["time", "basin", "z_i", "yh"] ∧
    ¬ (calculate dsetZ exCalcmoc).dims.get? 0 = some "basin" ∧
    (calculate dsetZ exCalcmoc).dims.get? 1 = some "basin" :=
  ⟨rfl, by decide, rfl⟩

/-- C1 amended: `calculate` computes the streamfunction for exactly the
three basins in the fixed order atl-arc, indopac, global, concatenates
them along a new `basin` dimension (inserted as the leading axis), and
then transposes so that the prior dimension 1 becomes dimension 0 of the
result while `basin` becomes dimension 1; the basin extent is exactly 3
and slice `b` along it is the `b`-th basin's collaborator output. -/
theorem moc_calculate_basin_axis (dset : Dset) (calcmoc : Dset → String → DataArray)
    (d0 : String) (drest : List String) (s0 : ℕ) (srest : List ℕ)
    (h : ∀ b ∈ mocBasins, (calcmoc dset b).dims = d0 :: drest ∧
      (calcmoc dset b).shape = s0 :: srest) :
    (calculate dset calcmoc).dims = d0 :: "basin" :: drest ∧
    (calculate dset calcmoc).shape = s0 :: 3 :: srest ∧
    ∀ t rest,
      (calculate dset calcmoc).data (t :: 0 :: rest) =
        (calcmoc dset "atl-arc").data (t :: rest) ∧
      (calculate dset calcmoc).data (t :: 1 :: rest) =
        (calcmoc dset "indopac").data (t :: rest) ∧
      (calculate dset calcmoc).data (t :: 2 :: rest) =
        (calcmoc dset "global").data (t :: rest) := by
  have ha := h "atl-arc" (by simp [mocBasins])
  refine ⟨?_, ?_, fun t rest => ⟨rfl, rfl, rfl⟩⟩
  · rw [show (calculate dset calcmoc).dims =
      swap01 ("basin" :: (calcmoc dset "atl-arc").dims) from rfl, ha.1]
    rfl
  · rw [show (calculate dset calcmoc).shape =
      swap01 (3 :: (calcmoc dset "atl-arc").shape) from rfl, ha.2]
    rfl

/-- C1 witness: the amended shape, order and slicing facts on the stub
collaborator. -/
theorem moc_calculate_basin_axis_witness :
    (calculate dsetZ exCalcmoc).shape = [1, 3, 35, 100] ∧
    (calculate dsetZ exCalcmoc).data [0, 1, 5] =
      (exCalcmoc dsetZ "indopac").data [0, 5] :=
  ⟨(moc_calculate_basin_axis dsetZ exCalcmoc "time" ["z_i", "yh"] 1 [35, 100]
      (fun _ _ => ⟨rfl, rfl⟩)).2.1,
   ((moc_calculate_basin_axis dsetZ exCalcmoc "time" ["z_i", "yh"] 1 [35, 100]
      (fun _ _ => ⟨rfl, rfl⟩)).2.2 0 [5]).2.1⟩

/-- C5 counterexample: a three-element tuple is not a two-element
sequence, yet the `dates` check of `_plotPsi` accepts it and rendering
proceeds, labelling from the first two entries — the code checks
`isinstance(dates, tuple)`, not the length. -/
theorem moc_dates_tuple_check_cex :
    specIsTwoElemSeq (PySeq.tup ["1", "2", "3"]) = false ∧
    datesLabel (some (PySeq.tup ["1", "2", "3"])) =
      Except.ok (some "Years 1 - 2") :=
  ⟨rfl, rfl⟩

/-- C5 amended: whenever a non-None `dates` value is supplied, `_plotPsi`
checks that it is a tuple — of any length — and raises an assertion error
otherwise; a tuple with at least two elements renders with a label built
from its first two elements, a shorter tuple fails afterwards with an
index error; when `dates` is None no check is performed and rendering
proceeds without a label. -/
theorem moc_dates_tuple_check :
    datesLabel none = Except.ok none ∧
    (∀ xs, datesLabel (some (PySeq.lst xs)) =
      Except.error "Year range should be provided as a tuple.") ∧
    (∀ a b rest, datesLabel (some (PySeq.tup (a :: b :: rest))) =
      Except.ok (some ("Years " ++ a ++ " - " ++ b))) ∧
    datesLabel (some (PySeq.tup [])) = Except.error "tuple index out of range" ∧
    (∀ a, datesLabel (some (PySeq.tup [a])) =
      Except.error "tuple index out of range") :=
  ⟨rfl, fun _ => rfl, fun _ _ _ => rfl, rfl, fun _ => rfl⟩

/-- C6 counterexample: the band is rows with latitude in [9, 11] (only
row 1), whose streamfunction extremum is 5, but `np.argmin` on line 144
searches the whole array, so the marked point is (0, 0) — outside the
requested band — because the extremal value 5 also occurs there earlier
in row-major order. -/
theorem moc_findExtrema_band_cex :
    findExtrema 2 2 exY exZ exPsi 9 11 0 1 = Except.ok ((0, 0), 5) ∧
    ¬ (9 ≤ exY 0 0 ∧ exY 0 0 ≤ 11) := by
  constructor
  · have hsel : selIdx 2 2 exY exZ 9 11 0 = [2, 3] := rfl
    have hamax : amax ((selIdx 2 2 exY exZ 9 11 0).map
        fun k => 1 * exPsi (k / 2) (k % 2)) = Except.ok 5 := by
      rw [hsel]
      show Except.ok ([1 * exPsi (3 / 2) (3 % 2)].foldl max
        (1 * exPsi (2 / 2) (2 % 2))) = Except.ok 5
      norm_num [exPsi, max_def]
    have hargmin : argminAbs (fun k => |exPsi (k / 2) (k % 2) - 1 * 5|)
        (List.range (2 * 2)) = some 0 := by
      have hf00 : |exPsi 0 0 - (5 : ℚ)| = 0 := by norm_num [exPsi]
      have hf01 : |exPsi 0 1 - (5 : ℚ)| = 5 := by norm_num [exPsi]
      have hf10 : |exPsi 1 0 - (5 : ℚ)| = 5 := by norm_num [exPsi]
      have hf11 : |exPsi 1 1 - (5 : ℚ)| = 0 := by norm_num [exPsi]
      show some ([1, 2, 3].foldl (fun b k2 =>
        if |exPsi (k2 / 2) (k2 % 2) - 1 * 5| < |exPsi (b / 2) (b % 2) - 1 * 5|
        then k2 else b) 0) = some 0
      norm_num [hf00, hf01, hf10, hf11]
    have hfe := findExtrema_eq_of 2 2 exY exZ exPsi 9 11 0 1 5 hamax 0 hargmin
    simpa [exPsi] using hfe
  · decide

/-- C6 amended: whenever the selection is nonempty and the multiplier is
1 or -1, `_findExtrema` succeeds, the printed value equals the signed
extremum of the streamfunction restricted to the latitude band and
minimum-depth threshold (the maximum, or the minimum when the multiplier
is -1), and that extremum is attained somewhere in the band — but the
marked point is only a point of the whole array where the streamfunction
equals that extremum, not necessarily a point inside the band. -/
theorem moc_findExtrema_band (m n : ℕ) (y z psi : ℕ → ℕ → ℚ)
    (minLat maxLat minDepth mult : ℚ)
    (hmult : mult = 1 ∨ mult = -1)
    (hsel : selIdx m n y z minLat maxLat minDepth ≠ []) :
    ∃ j i, findExtrema m n y z psi minLat maxLat minDepth mult =
        Except.ok ((j, i), psi j i) ∧
      (∃ k ∈ selIdx m n y z minLat maxLat minDepth, psi (k / n) (k % n) = psi j i) ∧
      ∀ k ∈ selIdx m n y z minLat maxLat minDepth,
        (mult = 1 → psi (k / n) (k % n) ≤ psi j i) ∧
        (mult = -1 → psi j i ≤ psi (k / n) (k % n)) := by
  have hmm : mult * mult = 1 := by
    rcases hmult with h | h <;> rw [h] <;> norm_num
  obtain ⟨j, i, hfe, hatt, hbound⟩ :=
    findExtrema_ok_spec m n y z psi minLat maxLat minDepth mult hsel hmm
  refine ⟨j, i, hfe, hatt, ?_⟩
  intro k hk
  have hb := hbound k hk
  constructor
  · intro h1
    rw [h1, one_mul, one_mul] at hb
    exact hb
  · intro h1
    rw [h1] at hb
    linarith

/-- C6 witness: the amended theorem applied to the 2 x 2 example. -/
theorem moc_findExtrema_band_witness :
    (findExtrema 2 2 exY exZ exPsi 9 11 0 1).isOk = true := by
  obtain ⟨j, i, hfe, -, -⟩ :=
    moc_findExtrema_band 2 2 exY exZ exPsi 9 11 0 1 (Or.inl rfl) (by decide)
  rw [hfe]
  rfl

/-- C9: a `_findExtrema` call whose latitude-band and minimum-depth
constraints select no grid point reduces over an empty selection and
errors (the numpy zero-size reduction) instead of skipping the
annotation marks; with at least one selected cell the call succeeds; and
when every vertical position is at or above -2000 m the min_depth=2000
call of the Indo-Pacific panel has an empty selection, so the annotation
pass of `plot` raises instead of producing the figure. -/
theorem moc_empty_selection :
    (∀ m n y z psi minLat maxLat minDepth mult,
      selIdx m n y z minLat maxLat minDepth = [] →
      findExtrema m n y z psi minLat maxLat minDepth mult =
        Except.error
          "zero-size array to reduction operation maximum which has no identity") ∧
    (∀ m n y z psi minLat maxLat minDepth mult,
      selIdx m n y z minLat maxLat minDepth ≠ [] →
      ∃ r, findExtrema m n y z psi minLat maxLat minDepth mult = Except.ok r) ∧
    (∀ m n yy z psi,
      (∀ k, k < m * n → (-2000 : ℚ) ≤ z (k / n) (k % n)) →
      ∃ msg, plotAnnots m n yy z psi = Except.error msg) := by
  refine ⟨findExtrema_empty, findExtrema_ok_of_nonempty, ?_⟩
  intro m n yy z psi h2000
  have hselE : selIdx m n yy z (-90) 90 2000 = [] := by
    apply List.filter_eq_nil.mpr
    intro k hk
    have hz := h2000 k (List.mem_range.mp hk)
    simp only [Bool.and_eq_true, decide_eq_true_eq]
    rintro ⟨-, hlt⟩
    exact absurd hlt (not_lt.mpr hz)
  have hferr := findExtrema_empty m n yy z (psi 1) (-90) 90 2000 (-1) hselE
  have hmem : Except.error
      "zero-size array to reduction operation maximum which has no identity" ∈
      annotCalls.map (fun c =>
        findExtrema m n yy z (psi c.1) c.2.1 c.2.2.1 c.2.2.2.1 c.2.2.2.2) := by
    rw [← hferr]
    have hc : ((1 : ℕ), (-90 : ℚ), (90 : ℚ), (2000 : ℚ), (-1 : ℚ)) ∈ annotCalls := by
      decide
    exact List.mem_map_of_mem _ hc
  simpa only [plotAnnots] using seqE_error_of_mem _ _ hmem

/-- C9 witness: the empty-selection error, a successful nonempty call,
and the aborted annotation pass of `plot` on a shallow grid. -/
theorem moc_empty_selection_witness :
    findExtrema 1 1 exY exZ exPsi 9 11 0 1 =
      Except.error
        "zero-size array to reduction operation maximum which has no identity" ∧
    (∃ r, findExtrema 2 2 exY exZ exPsi 9 11 0 1 = Except.ok r) ∧
    ∃ msg, plotAnnots 1 1 (fun _ _ => 0) (fun _ _ => -1) (fun _ _ _ => 0) =
      Except.error msg :=
  ⟨moc_empty_selection.1 1 1 exY exZ exPsi 9 11 0 1 (by decide),
   moc_empty_selection.2.1 2 2 exY exZ exPsi 9 11 0 1 (by decide),
   moc_empty_selection.2.2 1 1 (fun _ _ => 0) (fun _ _ => -1) (fun _ _ _ => 0)
     (by intro k hk; norm_num)⟩

/-- C7 counterexample: with uniform 500 m bathymetry and no basin mask,
the cell at vertical sample 0 m is masked although its sampled depth does
not exceed the bathymetry — `np.ma.masked_where(_zz < topomask, ...)` on
line 208 masks where the sampled depth is strictly less than the
bathymetry, the opposite of the claim's condition. -/
theorem moc_topomask_direction_cex :
    (createTopomask 1 (fun _ _ => (500 : ℚ)) none).1.mask 0 0 = true ∧
    ¬ (100 * ((0 : ℕ) : ℚ) >
      rowDepth 1 (maskedDepth (fun _ _ => (500 : ℚ)) none) 0) := by
  have hrow : rowDepth 1 (maskedDepth (fun _ _ => (500 : ℚ)) none) 0 = 500 := rfl
  constructor
  · show decide (100 * ((0 : ℕ) : ℚ) <
      rowDepth 1 (maskedDepth (fun _ _ => (500 : ℚ)) none) 0) = true
    rw [hrow]
    norm_num
  · rw [hrow]
    norm_num

/-- C7 amended: `_create_topomask` zeroes bathymetry outside the basin
mask, takes per-row maxima over the trailing dimension, tiles them over
the fixed vertical sampling 0, 100, ..., 7000 m, and produces a masked
array whose masked cells are exactly those whose sampled depth is
strictly less than the tiled bathymetry value (the unmasked cells, at or
below the sea floor, carry the shading) and whose values are zeroed so
only the boolean mask carries information. -/
theorem moc_topomask_direction (nx : ℕ) (depth : ℕ → ℕ → ℚ)
    (mask : Option (ℕ → ℕ → ℚ)) (hnx : 0 < nx) :
    ((createTopomask nx depth mask).2 = topoZ ∧ topoZ.length = 71 ∧
      ∀ k, k < 71 → topoZ.get? k = some (100 * (k : ℚ))) ∧
    (∀ k j, (createTopomask nx depth mask).1.mask k j = true ↔
      100 * (k : ℚ) < rowDepth nx (maskedDepth depth mask) j) ∧
    (∀ j, (∀ i, i < nx →
        maskedDepth depth mask j i ≤ rowDepth nx (maskedDepth depth mask) j) ∧
      ∃ i, i < nx ∧
        rowDepth nx (maskedDepth depth mask) j = maskedDepth depth mask j i) ∧
    (∀ k j, (createTopomask nx depth mask).1.data k j = 0) := by
  refine ⟨⟨rfl, rfl, ?_⟩, ?_, ?_, ?_⟩
  · intro k hk
    exact get?_map_range (fun i => 100 * (i : ℚ)) k 71 hk
  · intro k j
    simp [createTopomask]
  · intro j
    constructor
    · intro i hi
      exact foldMaxQ_ge_of_mem _ _ (List.mem_map_of_mem _ (List.mem_range.mpr hi))
    · have hne : ((List.range nx).map fun i => maskedDepth depth mask j i) ≠ [] := by
        simp only [ne_eq, List.map_eq_nil, List.range_eq_nil]
        omega
      obtain ⟨i, hi, heq⟩ := List.mem_map.mp (foldMaxQ_mem_of_ne _ hne)
      exact ⟨i, List.mem_range.mp hi, heq.symm⟩
  · intro k j
    simp [createTopomask]

/-- C7 witness: the amended mask characterization and the zeroed values
on the uniform example. -/
theorem moc_topomask_direction_witness :
    ((createTopomask 1 (fun _ _ => (500 : ℚ)) none).1.mask 0 0 = true ↔
      100 * ((0 : ℕ) : ℚ) <
        rowDepth 1 (maskedDepth (fun _ _ => (500 : ℚ)) none) 0) ∧
    (createTopomask 1 (fun _ _ => (500 : ℚ)) none).1.data 0 0 = 0 :=
  ⟨(moc_topomask_direction 1 (fun _ _ => (500 : ℚ)) none (by norm_num)).2.1 0 0,
   (moc_topomask_direction 1 (fun _ _ => (500 : ℚ)) none (by norm_num)).2.2.2 0 0⟩

/-- C8: in `plot` the y-coordinate used for plotting at row j is the
maximum of `geolat[j, :]` over the row's horizontal extent, broadcast to
align with the collapsed vertical coordinate, and a `zmod` that is not
1-D is collapsed by taking the minimum over its trailing horizontal
dimension, while a 1-D vertical array is left unchanged. -/
theorem moc_plot_coords (y zmod : Arr) (nzi ny nx : ℕ)
    (hy : y.shape = [ny, nx]) (hz : zmod.shape = [nzi, ny, nx]) (hnx : 0 < nx) :
    (plotCoords y zmod).2.shape = [nzi, ny] ∧
    (plotCoords y zmod).1.shape = [nzi, ny] ∧
    (∀ k j, (plotCoords y zmod).1.data [k, j] = rowMaxY y j) ∧
    (∀ j, (∀ i, i < nx → y.data [j, i] ≤ rowMaxY y j) ∧
      ∃ i, i < nx ∧ rowMaxY y j = y.data [j, i]) ∧
    (∀ k j, (∀ i, i < nx → (plotCoords y zmod).2.data [k, j] ≤ zmod.data [k, j, i]) ∧
      ∃ i, i < nx ∧ (plotCoords y zmod).2.data [k, j] = zmod.data [k, j, i]) ∧
    (∀ w : Arr, w.shape.length = 1 → zForPlot w = w) := by
  have hlen : ¬ zmod.shape.length = 1 := by
    rw [hz]
    simp
  have hzp : zForPlot zmod = aminLast zmod := by
    simp only [zForPlot, if_neg hlen]
  have hshape : (zForPlot zmod).shape = [nzi, ny] := by
    rw [hzp]
    show zmod.shape.dropLast = [nzi, ny]
    rw [hz]
    rfl
  have hrm : ∀ j, rowMaxY y j = foldMaxQ ((List.range nx).map fun i => y.data [j, i]) := by
    intro j
    show foldMaxQ ((List.range (y.shape.getD 1 0)).map fun i => y.data [j, i]) = _
    rw [hy]
    rfl
  have hzdata : ∀ k j, (plotCoords y zmod).2.data [k, j] =
      foldMinQ ((List.range nx).map fun i => zmod.data [k, j, i]) := by
    intro k j
    show (zForPlot zmod).data [k, j] = _
    rw [hzp]
    show foldMinQ ((List.range (zmod.shape.getLastD 0)).map
      fun i => zmod.data ([k, j] ++ [i])) = _
    rw [hz]
    rfl
  refine ⟨hshape, hshape, ?_, ?_, ?_, ?_⟩
  · intro k j
    show rowMaxY y ([k, j].getLastD 0) + 0 * (zForPlot zmod).data [k, j] = rowMaxY y j
    rw [zero_mul, add_zero]
    rfl
  · intro j
    rw [hrm j]
    constructor
    · intro i hi
      exact foldMaxQ_ge_of_mem _ _ (List.mem_map_of_mem _ (List.mem_range.mpr hi))
    · have hne : ((List.range nx).map fun i => y.data [j, i]) ≠ [] := by
        simp only [ne_eq, List.map_eq_nil, List.range_eq_nil]
        omega
      obtain ⟨i, hi, heq⟩ := List.mem_map.mp (foldMaxQ_mem_of_ne _ hne)
      exact ⟨i, List.mem_range.mp hi, heq.symm⟩
  · intro k j
    rw [hzdata k j]
    constructor
    · intro i hi
      exact foldMinQ_le_of_mem _ _ (List.mem_map_of_mem _ (List.mem_range.mpr hi))
    · have hne : ((List.range nx).map fun i => zmod.data [k, j, i]) ≠ [] := by
        simp only [ne_eq, List.map_eq_nil, List.range_eq_nil]
        omega
      obtain ⟨i, hi, heq⟩ := List.mem_map.mp (foldMinQ_mem_of_ne _ hne)
      exact ⟨i, List.mem_range.mp hi, heq.symm⟩
  · intro w hw
    simp [zForPlot, hw]

/-- C8 witness: coordinate flattening evaluated on the example arrays. -/
theorem moc_plot_coords_witness :
    (plotCoords exYArr exZArr).2.shape = [1, 2] ∧
    (plotCoords exYArr exZArr).1.data [0, 1] = rowMaxY exYArr 1 :=
  ⟨(moc_plot_coords exYArr exZArr 1 2 2 rfl rfl (by norm_num)).1,
   (moc_plot_coords exYArr exZArr 1 2 2 rfl rfl (by norm_num)).2.2.1 0 1⟩

/-- C10: in `_plotPsi`, when a topomask is provided the masked cells of
the streamfunction become 0.0 before contouring (so they enter the
filled-contour computation, never as NaN), and only without a topomask do
masked cells become NaN and drop out of the contours; `plot` passes a
topomask for every one of its three panels. -/
theorem moc_fill_masked (tm : MaskedArr2) (pmask : ℕ → ℕ → Bool)
    (pdata : ℕ → ℕ → ℚ) :
    (∀ j i, pmask j i = true → fillMasked (some tm) pmask pdata j i = some 0 ∧
      fillMasked none pmask pdata j i = none) ∧
    (∀ j i, pmask j i = false →
      fillMasked (some tm) pmask pdata j i = some (pdata j i) ∧
      fillMasked none pmask pdata j i = some (pdata j i)) ∧
    (∀ j i, (fillMasked (some tm) pmask pdata j i).isSome = true) ∧
    (∀ nx depth aamask ipmask, ∀ p ∈ plotPanels nx depth aamask ipmask,
      p.2.isSome = true) := by
  refine ⟨?_, ?_, ?_, ?_⟩
  · intro j i h
    constructor <;> simp [fillMasked, h]
  · intro j i h
    constructor <;> simp [fillMasked, h]
  · intro j i
    by_cases h : pmask j i <;> simp [fillMasked, h]
  · intro nx depth aamask ipmask p hp
    fin_cases hp <;> rfl

/-- C10 witness: the zero-fill with a topomask, the NaN-fill without,
and the Atlantic panel's topomask argument. -/
theorem moc_fill_masked_witness :
    fillMasked (some (createTopomask 1 (fun _ _ => 1) none).1)
      (fun _ _ => true) (fun _ _ => 3) 0 0 = some 0 ∧
    fillMasked none (fun _ _ => true) (fun _ _ => 3) 0 0 = none ∧
    (("a. Atlantic MOC [Sv]",
      some (createTopomask 1 (fun _ _ => (1 : ℚ)) (some fun _ _ => 1)).1) :
        String × Option MaskedArr2).2.isSome = true :=
  ⟨((moc_fill_masked (createTopomask 1 (fun _ _ => 1) none).1
      (fun _ _ => true) (fun _ _ => 3)).1 0 0 rfl).1,
   ((moc_fill_masked (createTopomask 1 (fun _ _ => 1) none).1
      (fun _ _ => true) (fun _ _ => 3)).1 0 0 rfl).2,
   (moc_fill_masked (createTopomask 1 (fun _ _ => 1) none).1
      (fun _ _ => true) (fun _ _ => 3)).2.2.2 1
     (fun _ _ => 1) (fun _ _ => 1) (fun _ _ => 1) _ (List.mem_cons_self _ _)⟩

end Moc
